import Mathlib

/- Shallow embedding of the Google Calendar synchronization code of convo-app
   (src/pages/api/actions/google/sendInvite.ts): the request handler
   sendInviteHandler with its RSVP-marking loop, the event transformation
   parseEvents, and the batch synchronizer updateEvents.  External collaborators
   (the Prisma store and the Google Calendar adapter) are modelled as records of
   functions, and the adapter calls actually issued are collected in a trace. -/

namespace ConvoApp

/- JS truthiness of a nullable string: null, undefined and the empty string are
   falsy; every other string is truthy. -/
def strTruthy : Option String → Bool
  | none => false
  | some s => !s.isEmpty

/- JS template-literal rendering of a nullable string: null renders as the four
   characters null. -/
def jsTemplate : Option String → String
  | none => "null"
  | some s => s

/- Model of the JS substring tests used below: pat begins the list. -/
def hasPrefixList : List Char → List Char → Bool
  | _, [] => true
  | [], _ :: _ => false
  | c :: cs, p :: ps => c == p && hasPrefixList cs ps

/- pat occurs contiguously somewhere in the list. -/
def hasSubstrList (pat : List Char) : List Char → Bool
  | [] => pat.isEmpty
  | c :: cs => hasPrefixList (c :: cs) pat || hasSubstrList pat cs

/- Model of the JS expression s.includes(pat). -/
def jsIncludes (s pat : String) : Bool :=
  hasSubstrList pat.toList s.toList

/- The FullEvent record handed to parseEvents and updateEvents: a Prisma Event
   row joined with its proposer.  Only the fields the synchronization code
   reads are carried; descriptionHtml, gCalEventId and gCalId are nullable in
   the schema. -/
structure FullEvent where
  id : String
  title : String
  descriptionHtml : Option String
  startDateTime : String
  endDateTime : String
  location : String
  hash : String
  proposerNickname : String
  isDeleted : Bool
  gCalEventId : Option String
  gCalId : Option String
  deriving DecidableEq, Repr

/- The calendar-event payload produced by parseEvents (the ParsedEvents element
   type of the source): a calendar_v3 Schema$Event body plus the bookkeeping
   fields databaseId, isDeleted, gCalId and gCalEventId. -/
structure ParsedEvent where
  databaseId : String
  isDeleted : Bool
  gCalId : Option String
  gCalEventId : Option String
  summary : String
  startDateTime : String
  endDateTime : String
  guestsCanSeeOtherGuests : Bool
  guestsCanInviteOthers : Bool
  location : String
  description : String
  attendees : Option (List String)
  deriving DecidableEq, Repr

/- The per-event body of the events.map inside parseEvents, for an event that
   passed the gCalEventId truthiness check. -/
def parseOne (protocol reqHost : String) (event : FullEvent) : ParsedEvent :=
  { databaseId := event.id
    isDeleted := event.isDeleted
    gCalId := event.gCalId
    gCalEventId := event.gCalEventId
    summary := if event.isDeleted then "CANCELLED: " ++ event.title else event.title
    startDateTime := event.startDateTime
    endDateTime := event.endDateTime
    guestsCanSeeOtherGuests := false
    guestsCanInviteOthers := false
    location := event.location
    description :=
      jsTemplate event.descriptionHtml ++
        (if event.proposerNickname.isEmpty then ""
         else "\n\n" ++ "Proposer: " ++ event.proposerNickname) ++
        "\nRSVP here: " ++ protocol ++ "://" ++ reqHost ++ "/rsvp/" ++ event.hash
    attendees := none }

/- The events.map of parseEvents: throwing inside the map aborts at the first
   event whose gCalEventId is falsy, rendered as Except. -/
def parseEventsGo (protocol reqHost : String) : List FullEvent → Except String (List ParsedEvent)
  | [] => .ok []
  | event :: rest =>
    if strTruthy event.gCalEventId then
      match parseEventsGo protocol reqHost rest with
      | .error msg => .error msg
      | .ok parsed => .ok (parseOne protocol reqHost event :: parsed)
    else
      .error "gCalEventId not found for event"

/- parseEvents: picks http when the request host contains localhost and https
   otherwise, then maps every event to its calendar payload. -/
def parseEvents (events : List FullEvent) (reqHost : String) : Except String (List ParsedEvent) :=
  parseEventsGo (if jsIncludes reqHost "localhost" then "http" else "https") reqHost events

/- One observable operation at the Calendar Adapter boundary. -/
inductive AdapterCall where
  | getCalendar : AdapterCall
  | getEvent : String → String → AdapterCall
  | update : Option String → AdapterCall
  deriving DecidableEq, Repr

/- The Calendar Adapter boundary as seen by updateEvents: getEventAttendees is
   the attendees field of the remote event returned by getEvent (calendarId,
   eventId), which may be absent; update is calendar.events.update and either
   rejects or returns the id field of the response data (nullable in the API
   types). -/
structure Adapter where
  getEventAttendees : String → String → Option (List String)
  update : ParsedEvent → Except String (Option String)

/- The attendee-prefill for-loop of updateEvents: walks parsedEvents building
   eventsToUpdate; a deleted event is pushed as is, a non-deleted event with a
   falsy gCalEventId or a falsy gCalId is skipped with a logged error, and
   otherwise the remote event is fetched and its attendees (or an empty list)
   are written into the payload.  Returns the getEvent call trace together with
   eventsToUpdate. -/
def buildEventsToUpdate (adapter : Adapter) : List ParsedEvent → List AdapterCall × List ParsedEvent
  | [] => ([], [])
  | parsedEvent :: rest =>
    if parsedEvent.isDeleted then
      ((buildEventsToUpdate adapter rest).1, parsedEvent :: (buildEventsToUpdate adapter rest).2)
    else if !strTruthy parsedEvent.gCalEventId then
      buildEventsToUpdate adapter rest
    else if !strTruthy parsedEvent.gCalId then
      buildEventsToUpdate adapter rest
    else
      (AdapterCall.getEvent (parsedEvent.gCalId.getD "") (parsedEvent.gCalEventId.getD "") ::
          (buildEventsToUpdate adapter rest).1,
        { parsedEvent with
            attendees := some ((adapter.getEventAttendees (parsedEvent.gCalId.getD "")
              (parsedEvent.gCalEventId.getD "")).getD []) } :: (buildEventsToUpdate adapter rest).2)

/- Promise.all over already-started calls: succeeds with every value when every
   call succeeded, and rejects when any call rejected. -/
def promiseAll {α : Type} : List (Except String α) → Except String (List α)
  | [] => .ok []
  | .error msg :: _ => .error msg
  | .ok a :: rest =>
    match promiseAll rest with
    | .error msg => .error msg
    | .ok as => .ok (a :: as)

/- One element of the list returned by updateEvents. -/
structure IdPair where
  calendarEventId : Option String
  databaseEventId : Option String
  deriving DecidableEq, Repr

/- The events argument of updateEvents. -/
structure UpdateArgs where
  updated : List FullEvent
  deleted : List FullEvent
  deriving DecidableEq, Repr

/- allEvents of updateEvents: the updated events followed by the deleted events
   re-marked with isDeleted true. -/
def allEventsOf (events : UpdateArgs) : List FullEvent :=
  events.updated ++ events.deleted.map (fun e => { e with isDeleted := true })

/- The final updated.map of updateEvents: the k-th response id is paired with
   the id of the k-th element of allEvents (an out-of-range index yields an
   absent databaseEventId, as the optional chaining in the source does). -/
def pairIds (updated : List (Option String)) (allEvents : List FullEvent) : List IdPair :=
  updated.enum.map (fun p =>
    { calendarEventId := p.2, databaseEventId := allEvents[p.1]?.map FullEvent.id })

/- updateEvents: merge the working set, parse it (throwing on a falsy
   gCalEventId), obtain the calendar client, prefill attendees, issue every
   update and await them together, then pair response ids with allEvents
   positions.  The first component is the trace of adapter calls issued. -/
def updateEvents (adapter : Adapter) (events : UpdateArgs) (reqHost : String) :
    List AdapterCall × Except String (List IdPair) :=
  match parseEvents (allEventsOf events) reqHost with
  | .error msg => ([], .error msg)
  | .ok parsedEvents =>
    (AdapterCall.getCalendar :: (buildEventsToUpdate adapter parsedEvents).1 ++
        ((buildEventsToUpdate adapter parsedEvents).2.map (fun e => AdapterCall.update e.gCalEventId)),
      match promiseAll ((buildEventsToUpdate adapter parsedEvents).2.map adapter.update) with
      | .error msg => .error msg
      | .ok updated => .ok (pairIds updated (allEventsOf events)))

/- The collaborators of sendInviteHandler: the sendInvite utility, the user
   lookup by email (prisma.user.findUnique returning the user id) and the
   RSVP-row update (prisma.rsvp.update, which may throw). -/
structure InviteDeps where
  sendInvite : List String → String → Except String Unit
  findUserByEmail : String → Option String
  rsvpUpdate : String → String → Except String Unit

/- The RSVP-marking for-loop of sendInviteHandler: per iteration the user is
   looked up by email and the loop breaks when none is found; otherwise the
   RSVP row for (eventId, userId) is updated inside a try/catch that logs and
   swallows the error.  Returns the attempted (eventId, userId) updates in
   order together with the logged error messages. -/
def rsvpMarkLoop (deps : InviteDeps) (email : String) :
    List String → List (String × String) × List String
  | [] => ([], [])
  | eventId :: rest =>
    match deps.findUserByEmail email with
    | none => ([], [])
    | some userId =>
      match deps.rsvpUpdate eventId userId with
      | .ok _ =>
        ((eventId, userId) :: (rsvpMarkLoop deps email rest).1, (rsvpMarkLoop deps email rest).2)
      | .error msg =>
        ((eventId, userId) :: (rsvpMarkLoop deps email rest).1,
          msg :: (rsvpMarkLoop deps email rest).2)

/- sendInviteHandler: rejects when events or email is missing or when the
   PROD_HOST configuration is absent, sends the invite, then runs the
   RSVP-marking loop and responds with data true. -/
def sendInviteHandler (deps : InviteDeps) (prodHost : Option String)
    (events : Option (List String)) (email : Option String) :
    Except String (Bool × (List (String × String) × List String)) :=
  if !(events.isSome && strTruthy email) then
    .error "events and or email not found in req.body"
  else if !strTruthy prodHost then
    .error "set prodHost in .env"
  else
    match deps.sendInvite (events.getD []) (email.getD "") with
    | .error msg => .error msg
    | .ok _ => .ok (true, rsvpMarkLoop deps (email.getD "") (events.getD []))

/- Concrete fixtures used to evaluate the model on closed inputs. -/

/- A non-deleted event with a remote event id but no remote calendar id. -/
def evSkip : FullEvent :=
  { id := "e0", title := "t0", descriptionHtml := some "d0", startDateTime := "2024-01-01",
    endDateTime := "2024-01-02", location := "loc0", hash := "h0", proposerNickname := "nick",
    isDeleted := false, gCalEventId := some "g0", gCalId := none }

/- An event with both remote ids, used as a member of the deleted set. -/
def evDel : FullEvent :=
  { evSkip with id := "e1", title := "t1", hash := "h1", gCalEventId := some "g1", gCalId := some "cal1" }

/- A fully linked non-deleted event. -/
def evOk : FullEvent :=
  { evSkip with id := "e2", title := "t2", hash := "h2", gCalEventId := some "g2", gCalId := some "cal2" }

/- An event with no remote event id. -/
def evNoGid : FullEvent :=
  { evSkip with id := "e3", gCalEventId := none, gCalId := some "cal3" }

/- evDel as it appears in the working set after the deleted-set marking. -/
def evDelMarked : FullEvent := { evDel with isDeleted := true }

/- An adapter whose remote events have one attendee and whose update echoes the
   submitted remote event id. -/
def echoAdapter : Adapter :=
  { getEventAttendees := fun _ _ => some ["alice"], update := fun e => .ok e.gCalEventId }

/- evOk as parseEvents renders it for a non-localhost host. -/
def evOkParsed : ParsedEvent := parseOne "https" "example.com" evOk

/-- Claim C1 (code bug): the returned pair list does NOT stay aligned with the
originating events once an event is skipped.  Working set: evSkip (database id
e0, skipped for lacking gCalId) followed by deleted evDel (database id e1,
remote id g1).  Only evDel reaches the provider (the trace shows a single
update call for g1), yet the returned pair binds calendar event id g1 to
database id e0, the id of the skipped event, instead of e1. -/
theorem updateEvents_mispairs_ids_after_skip :
    updateEvents echoAdapter { updated := [evSkip], deleted := [evDel] } "example.com" =
      ([AdapterCall.getCalendar, AdapterCall.update (some "g1")],
        .ok [{ calendarEventId := some "g1", databaseEventId := some "e0" }]) ∧
    evDel.id = "e1" ∧ evSkip.id = "e0" :=
  ⟨rfl, rfl, rfl⟩

/-- Claim C2, counterexample: an event of the working set lacking gCalEventId
is not skipped-and-continued; parseEvents throws, so the whole batch aborts
before any adapter call, and the healthy event evOk in the same batch is never
processed (empty trace). -/
theorem updateEvents_aborts_batch_on_missing_gCalEventId :
    updateEvents echoAdapter { updated := [evNoGid, evOk], deleted := [] } "example.com" =
      ([], .error "gCalEventId not found for event") :=
  rfl

/-- Claim C2, amended: only the missing-gCalId case has skip-and-continue
semantics.  A non-deleted working-set member with a truthy gCalEventId and a
falsy gCalId is dropped by the attendee-prefill loop, and the rest of the
batch is processed exactly as if that event were absent. -/
theorem buildEventsToUpdate_skips_missing_gCalId (adapter : Adapter)
    (front back : List ParsedEvent) (bad : ParsedEvent)
    (hdel : bad.isDeleted = false) (hgid : strTruthy bad.gCalEventId = true)
    (hcal : strTruthy bad.gCalId = false) :
    buildEventsToUpdate adapter (front ++ bad :: back) =
      buildEventsToUpdate adapter (front ++ back) := by
  induction front with
  | nil => simp [buildEventsToUpdate, hdel, hgid, hcal]
  | cons a front ih => simp [buildEventsToUpdate, ih]

/-- Witness for the amended claim C2: evSkip is skipped in front of evOk. -/
theorem buildEventsToUpdate_skips_missing_gCalId_witness :
    buildEventsToUpdate echoAdapter
        ([] ++ parseOne "https" "example.com" evSkip :: [evOkParsed]) =
      buildEventsToUpdate echoAdapter ([] ++ [evOkParsed]) :=
  buildEventsToUpdate_skips_missing_gCalId echoAdapter [] [evOkParsed]
    (parseOne "https" "example.com" evSkip) rfl rfl rfl

/- If some event of the list has a falsy gCalEventId then parseEventsGo
   rejects. -/
theorem parseEventsGo_error_of_mem (protocol reqHost : String) :
    ∀ (l : List FullEvent) (e : FullEvent), e ∈ l → strTruthy e.gCalEventId = false →
      ∃ msg, parseEventsGo protocol reqHost l = .error msg
  | [], e, hmem, _ => by simp at hmem
  | a :: rest, e, hmem, hfalse => by
    rcases List.mem_cons.mp hmem with rfl | hmem
    · exact ⟨"gCalEventId not found for event", by simp [parseEventsGo, hfalse]⟩
    · cases ha : strTruthy a.gCalEventId with
      | false => exact ⟨"gCalEventId not found for event", by simp [parseEventsGo, ha]⟩
      | true =>
        obtain ⟨m, hm⟩ := parseEventsGo_error_of_mem protocol reqHost rest e hmem hfalse
        exact ⟨m, by simp [parseEventsGo, ha, hm]⟩

/-- Claim C3: when any event of the batch (updated or deleted) has a falsy
gCalEventId, updateEvents rejects and its adapter-call trace is empty: no
getCalendar, getEvent or events.update operation is ever issued. -/
theorem updateEvents_rejects_before_any_adapter_call (adapter : Adapter)
    (args : UpdateArgs) (reqHost : String) (e : FullEvent)
    (hmem : e ∈ args.updated ++ args.deleted) (hmiss : strTruthy e.gCalEventId = false) :
    (updateEvents adapter args reqHost).1 = [] ∧
    ∃ msg, (updateEvents adapter args reqHost).2 = .error msg := by
  have hmem2 : ∃ e2, e2 ∈ allEventsOf args ∧ strTruthy e2.gCalEventId = false := by
    rcases List.mem_append.mp hmem with h | h
    · exact ⟨e, by unfold allEventsOf; exact List.mem_append.mpr (Or.inl h), hmiss⟩
    · refine ⟨{ e with isDeleted := true }, ?_, hmiss⟩
      unfold allEventsOf
      exact List.mem_append.mpr (Or.inr (List.mem_map_of_mem _ h))
  obtain ⟨e2, hm2, hf2⟩ := hmem2
  obtain ⟨msg, hmsg⟩ := parseEventsGo_error_of_mem
    (if jsIncludes reqHost "localhost" then "http" else "https") reqHost
    (allEventsOf args) e2 hm2 hf2
  have hpe : parseEvents (allEventsOf args) reqHost = .error msg := hmsg
  exact ⟨by simp [updateEvents, hpe], ⟨msg, by simp [updateEvents, hpe]⟩⟩

/-- Witness for claim C3: a batch holding evNoGid rejects with no adapter
call. -/
theorem updateEvents_rejects_before_any_adapter_call_witness :
    (updateEvents echoAdapter { updated := [evNoGid], deleted := [] } "example.com").1 = [] ∧
    ∃ msg,
      (updateEvents echoAdapter { updated := [evNoGid], deleted := [] } "example.com").2 =
        .error msg :=
  updateEvents_rejects_before_any_adapter_call echoAdapter
    { updated := [evNoGid], deleted := [] } "example.com" evNoGid (by decide) rfl

/-- Claim C4: in the RSVP-marking loop of sendInviteHandler, when the user
lookup by the given email finds no user on the first iteration, the loop
breaks at once: no RSVP update is attempted for any event of the list, in
particular none for the second or any subsequent event. -/
theorem rsvpMarkLoop_stops_on_missing_user (deps : InviteDeps) (email e1 e2 : String)
    (rest : List String) (h : deps.findUserByEmail email = none) :
    rsvpMarkLoop deps email (e1 :: e2 :: rest) = ([], []) := by
  simp [rsvpMarkLoop, h]

/- Collaborators with no user for any email. -/
def noUserDeps : InviteDeps :=
  { sendInvite := fun _ _ => .ok (), findUserByEmail := fun _ => none,
    rsvpUpdate := fun _ _ => .ok () }

/-- Witness for claim C4: two events, no matching user, nothing attempted. -/
theorem rsvpMarkLoop_stops_on_missing_user_witness :
    rsvpMarkLoop noUserDeps "a@b.c" ("ev1" :: "ev2" :: []) = ([], []) :=
  rsvpMarkLoop_stops_on_missing_user noUserDeps "a@b.c" "ev1" "ev2" [] rfl

/-- Claim C5: in the RSVP-marking loop, when the user lookup succeeds, every
event of the list gets an RSVP-update attempt in order, regardless of which
updates throw; a thrown per-row error is caught and recorded in the log
instead of propagating (the loop is a total function whose errors appear only
in the log component). -/
theorem rsvpMarkLoop_catches_row_errors (deps : InviteDeps) (email userId : String)
    (events : List String) (h : deps.findUserByEmail email = some userId) :
    (rsvpMarkLoop deps email events).1 = events.map (fun e => (e, userId)) ∧
    ∀ e, e ∈ events → ∀ msg, deps.rsvpUpdate e userId = .error msg →
      msg ∈ (rsvpMarkLoop deps email events).2 := by
  induction events with
  | nil => simp [rsvpMarkLoop]
  | cons a rest ih =>
    cases hu : deps.rsvpUpdate a userId with
    | ok v =>
      refine ⟨by simp [rsvpMarkLoop, h, hu, ih.1], ?_⟩
      intro e he msg hmsg
      rcases List.mem_cons.mp he with rfl | he
      · rw [hu] at hmsg; exact absurd hmsg (by simp)
      · have hrec := ih.2 e he msg hmsg
        simp only [rsvpMarkLoop, h, hu]
        exact hrec
    | error m =>
      refine ⟨by simp [rsvpMarkLoop, h, hu, ih.1], ?_⟩
      intro e he msg hmsg
      rcases List.mem_cons.mp he with rfl | he
      · rw [hu] at hmsg
        have hm : m = msg := by
          injection hmsg
        simp only [rsvpMarkLoop, h, hu, hm]
        exact List.mem_cons_self _ _
      · have hrec := ih.2 e he msg hmsg
        simp only [rsvpMarkLoop, h, hu]
        exact List.mem_cons_of_mem _ hrec

/- Collaborators where the update for event bad throws and every other event
   updates cleanly. -/
def failRowDeps : InviteDeps :=
  { sendInvite := fun _ _ => .ok (), findUserByEmail := fun _ => some "u1",
    rsvpUpdate := fun eventId _ => if eventId == "bad" then .error "boom" else .ok () }

/-- Witness for claim C5: the update for bad throws, yet both bad and the
subsequent good are attempted and the error lands in the log. -/
theorem rsvpMarkLoop_catches_row_errors_witness :
    (rsvpMarkLoop failRowDeps "a@b.c" ("bad" :: "good" :: [])).1 =
      [("bad", "u1"), ("good", "u1")] ∧
    "boom" ∈ (rsvpMarkLoop failRowDeps "a@b.c" ("bad" :: "good" :: [])).2 :=
  ⟨(rsvpMarkLoop_catches_row_errors failRowDeps "a@b.c" "u1" ("bad" :: "good" :: []) rfl).1,
    (rsvpMarkLoop_catches_row_errors failRowDeps "a@b.c" "u1" ("bad" :: "good" :: []) rfl).2
      "bad" (by decide) "boom" rfl⟩

/- Characterization of the members of eventsToUpdate: a member either is a
   deleted event of parsedEvents pushed unchanged, or is a non-deleted event
   with both remote ids truthy whose attendees field carries exactly the
   fetched remote attendees (an absent remote attendee list becoming []). -/
theorem mem_buildEventsToUpdate (adapter : Adapter) :
    ∀ (parsed : List ParsedEvent) (e : ParsedEvent),
      e ∈ (buildEventsToUpdate adapter parsed).2 →
      (e.isDeleted = true ∧ e ∈ parsed) ∨
      (e.isDeleted = false ∧ strTruthy e.gCalEventId = true ∧ strTruthy e.gCalId = true ∧
        e.attendees = some ((adapter.getEventAttendees (e.gCalId.getD "")
          (e.gCalEventId.getD "")).getD []))
  | [], e, hmem => by simp [buildEventsToUpdate] at hmem
  | pe :: rest, e, hmem => by
    have lift :
        (e.isDeleted = true ∧ e ∈ rest) ∨
        (e.isDeleted = false ∧ strTruthy e.gCalEventId = true ∧ strTruthy e.gCalId = true ∧
          e.attendees = some ((adapter.getEventAttendees (e.gCalId.getD "")
            (e.gCalEventId.getD "")).getD [])) →
        (e.isDeleted = true ∧ e ∈ pe :: rest) ∨
        (e.isDeleted = false ∧ strTruthy e.gCalEventId = true ∧ strTruthy e.gCalId = true ∧
          e.attendees = some ((adapter.getEventAttendees (e.gCalId.getD "")
            (e.gCalEventId.getD "")).getD [])) := by
      rintro (⟨h1, h2⟩ | h)
      · exact Or.inl ⟨h1, List.mem_cons_of_mem _ h2⟩
      · exact Or.inr h
    cases hdel : pe.isDeleted with
    | true =>
      simp only [buildEventsToUpdate, hdel, if_true] at hmem
      rcases List.mem_cons.mp hmem with rfl | hmem
      · exact Or.inl ⟨hdel, List.mem_cons_self _ _⟩
      · exact lift (mem_buildEventsToUpdate adapter rest e hmem)
    | false =>
      cases hgid : strTruthy pe.gCalEventId with
      | false =>
        simp only [buildEventsToUpdate, hdel, hgid] at hmem
        exact lift (mem_buildEventsToUpdate adapter rest e hmem)
      | true =>
        cases hcal : strTruthy pe.gCalId with
        | false =>
          simp only [buildEventsToUpdate, hdel, hgid, hcal] at hmem
          exact lift (mem_buildEventsToUpdate adapter rest e hmem)
        | true =>
          simp only [buildEventsToUpdate, hdel, hgid, hcal] at hmem
          rcases List.mem_cons.mp hmem with rfl | hmem
          · exact Or.inr ⟨rfl, hgid, hcal, rfl⟩
          · exact lift (mem_buildEventsToUpdate adapter rest e hmem)

/-- Claim C6: every non-deleted payload that reaches the update stage carries
the attendees fetched for it from the remote event, unchanged; when the remote
event has no attendee list the payload carries an empty one. -/
theorem eventsToUpdate_preserve_fetched_attendees (adapter : Adapter)
    (parsed : List ParsedEvent) (e : ParsedEvent)
    (hmem : e ∈ (buildEventsToUpdate adapter parsed).2) (hnd : e.isDeleted = false) :
    (∀ l, adapter.getEventAttendees (e.gCalId.getD "") (e.gCalEventId.getD "") = some l →
        e.attendees = some l) ∧
    (adapter.getEventAttendees (e.gCalId.getD "") (e.gCalEventId.getD "") = none →
        e.attendees = some []) := by
  rcases mem_buildEventsToUpdate adapter parsed e hmem with ⟨h1, _⟩ | ⟨_, _, _, hatt⟩
  · rw [hnd] at h1; exact absurd h1 (by simp)
  · constructor
    · intro l hl; rw [hatt, hl]; rfl
    · intro hl; rw [hatt, hl]; rfl

/- evOkParsed after the attendee prefill against echoAdapter. -/
def evOkFetched : ParsedEvent := { evOkParsed with attendees := some ["alice"] }

/-- Witness for claim C6: evOk reaches the update stage with exactly the
attendee list alice fetched from the remote event. -/
theorem eventsToUpdate_preserve_fetched_attendees_witness :
    evOkFetched ∈ (buildEventsToUpdate echoAdapter [evOkParsed]).2 ∧
    evOkFetched.isDeleted = false ∧
    evOkFetched.attendees = some ["alice"] :=
  ⟨by decide, rfl,
    (eventsToUpdate_preserve_fetched_attendees echoAdapter [evOkParsed] evOkFetched
      (by decide) rfl).1 ["alice"] rfl⟩

/- A successful parseEventsGo run maps every event through parseOne. -/
theorem parseEventsGo_ok (protocol reqHost : String) :
    ∀ (l : List FullEvent) (parsed : List ParsedEvent),
      parseEventsGo protocol reqHost l = .ok parsed →
      parsed = l.map (parseOne protocol reqHost)
  | [], parsed, h => by
    simp only [parseEventsGo] at h
    injection h with h
    simp [← h]
  | a :: rest, parsed, h => by
    cases ha : strTruthy a.gCalEventId with
    | false => rw [parseEventsGo, ha] at h; exact absurd h (by simp)
    | true =>
      rw [parseEventsGo, ha] at h
      simp only [if_true] at h
      cases hr : parseEventsGo protocol reqHost rest with
      | error m => rw [hr] at h; exact absurd h (by simp)
      | ok ps =>
        rw [hr] at h
        injection h with h
        rw [← h, List.map_cons, parseEventsGo_ok protocol reqHost rest ps hr]

/- The getEvent trace of the attendee-prefill loop is exactly one fetch per
   non-deleted event with both remote ids truthy, in order. -/
theorem buildEventsToUpdate_trace_eq (adapter : Adapter) :
    ∀ parsed : List ParsedEvent,
      (buildEventsToUpdate adapter parsed).1 =
        (parsed.filter (fun e => !e.isDeleted && strTruthy e.gCalEventId &&
          strTruthy e.gCalId)).map
          (fun e => AdapterCall.getEvent (e.gCalId.getD "") (e.gCalEventId.getD ""))
  | [] => rfl
  | pe :: rest => by
    have ih := buildEventsToUpdate_trace_eq adapter rest
    cases hdel : pe.isDeleted with
    | true => simp [buildEventsToUpdate, List.filter_cons, hdel, ih]
    | false =>
      cases hgid : strTruthy pe.gCalEventId with
      | false => simp [buildEventsToUpdate, List.filter_cons, hdel, hgid, ih]
      | true =>
        cases hcal : strTruthy pe.gCalId with
        | false => simp [buildEventsToUpdate, List.filter_cons, hdel, hgid, hcal, ih]
        | true => simp [buildEventsToUpdate, List.filter_cons, hdel, hgid, hcal, ih]

/-- Claim C7: for every position of a successfully parsed working set, the
payload title is the original title prefixed with CANCELLED and a space
exactly when the event is deleted, and unprefixed otherwise; and the
attendee-fetch trace of the prefill loop contains fetches only for non-deleted
events (deleted events are never fetched). -/
theorem deleted_events_cancelled_title_and_never_fetched :
    (∀ (events : List FullEvent) (reqHost : String) (parsed : List ParsedEvent) (i : Nat),
        parseEvents events reqHost = .ok parsed →
        parsed[i]?.map ParsedEvent.summary =
          events[i]?.map (fun e =>
            if e.isDeleted then "CANCELLED: " ++ e.title else e.title)) ∧
    (∀ (adapter : Adapter) (parsed : List ParsedEvent),
        (buildEventsToUpdate adapter parsed).1 =
          (parsed.filter (fun e => !e.isDeleted && strTruthy e.gCalEventId &&
            strTruthy e.gCalId)).map
            (fun e => AdapterCall.getEvent (e.gCalId.getD "") (e.gCalEventId.getD ""))) := by
  constructor
  · intro events reqHost parsed i h
    rw [parseEventsGo_ok _ _ _ _ h, List.getElem?_map]
    cases events[i]? with
    | none => rfl
    | some e => rfl
  · exact fun adapter parsed => buildEventsToUpdate_trace_eq adapter parsed

/-- Witness for claim C7: the deleted event evDelMarked parses with title
CANCELLED: t1. -/
theorem deleted_events_cancelled_title_and_never_fetched_witness :
    ([parseOne "https" "example.com" evDelMarked] : List ParsedEvent)[0]?.map
        ParsedEvent.summary =
      ([evDelMarked] : List FullEvent)[0]?.map (fun e =>
        if e.isDeleted then "CANCELLED: " ++ e.title else e.title) ∧
    (parseOne "https" "example.com" evDelMarked).summary = "CANCELLED: t1" :=
  ⟨(deleted_events_cancelled_title_and_never_fetched).1 [evDelMarked] "example.com"
      [parseOne "https" "example.com" evDelMarked] 0 rfl, rfl⟩

/- Every payload description ends with the RSVP link built from the protocol,
   the request host and the event hash. -/
theorem parseOne_description_suffix (protocol reqHost : String) (e : FullEvent) :
    ∃ head, (parseOne protocol reqHost e).description =
      head ++ (protocol ++ "://" ++ reqHost ++ "/rsvp/" ++ e.hash) := by
  refine ⟨jsTemplate e.descriptionHtml ++
    (if e.proposerNickname.isEmpty then ""
     else "\n\n" ++ "Proposer: " ++ e.proposerNickname) ++ "\nRSVP here: ", ?_⟩
  simp only [parseOne, String.append_assoc]

/-- Claim C8: every description built by parseEvents ends with the RSVP link
protocol://host/rsvp/hash, with protocol http exactly when the host contains
localhost and https otherwise; in particular every event parsed for host
example.com ends with https://example.com/rsvp/hash and every event parsed
for host localhost:3000 ends with http://localhost:3000/rsvp/hash. -/
theorem description_ends_with_rsvp_link :
    (∀ (events : List FullEvent) (reqHost : String) (parsed : List ParsedEvent)
        (i : Nat) (e : FullEvent) (pe : ParsedEvent),
        parseEvents events reqHost = .ok parsed → events[i]? = some e →
        parsed[i]? = some pe →
        ∃ head, pe.description =
          head ++ ((if jsIncludes reqHost "localhost" then "http" else "https") ++ "://" ++
            reqHost ++ "/rsvp/" ++ e.hash)) ∧
    (∀ (e : FullEvent) (parsed : List ParsedEvent),
        parseEvents [e] "example.com" = .ok parsed →
        ∃ head pe, parsed = [pe] ∧
          pe.description = head ++ ("https://example.com/rsvp/" ++ e.hash)) ∧
    (∀ (e : FullEvent) (parsed : List ParsedEvent),
        parseEvents [e] "localhost:3000" = .ok parsed →
        ∃ head pe, parsed = [pe] ∧
          pe.description = head ++ ("http://localhost:3000/rsvp/" ++ e.hash)) := by
  refine ⟨?_, ?_, ?_⟩
  · intro events reqHost parsed i e pe h he hpe
    rw [parseEventsGo_ok _ _ _ _ h, List.getElem?_map, he] at hpe
    obtain ⟨head, hd⟩ := parseOne_description_suffix
      (if jsIncludes reqHost "localhost" then "http" else "https") reqHost e
    injection hpe with hpe
    exact ⟨head, hpe ▸ hd⟩
  · intro e parsed h
    obtain ⟨head, hd⟩ := parseOne_description_suffix
      (if jsIncludes "example.com" "localhost" then "http" else "https") "example.com" e
    exact ⟨head, _, parseEventsGo_ok _ _ _ _ h, hd⟩
  · intro e parsed h
    obtain ⟨head, hd⟩ := parseOne_description_suffix
      (if jsIncludes "localhost:3000" "localhost" then "http" else "https") "localhost:3000" e
    exact ⟨head, _, parseEventsGo_ok _ _ _ _ h, hd⟩

/-- Witness for claim C8: evOk parsed for example.com carries the https link
and evOk parsed for localhost:3000 carries the http link. -/
theorem description_ends_with_rsvp_link_witness :
    (∃ head pe, ([parseOne "https" "example.com" evOk] : List ParsedEvent) = [pe] ∧
      pe.description = head ++ ("https://example.com/rsvp/" ++ evOk.hash)) ∧
    (∃ head pe, ([parseOne "http" "localhost:3000" evOk] : List ParsedEvent) = [pe] ∧
      pe.description = head ++ ("http://localhost:3000/rsvp/" ++ evOk.hash)) :=
  ⟨description_ends_with_rsvp_link.2.1 evOk [parseOne "https" "example.com" evOk] rfl,
    description_ends_with_rsvp_link.2.2 evOk [parseOne "http" "localhost:3000" evOk] rfl⟩

/- Awaiting a batch holding a rejected call rejects. -/
theorem promiseAll_error_of_mem {α : Type} (msg : String) :
    ∀ l : List (Except String α), Except.error msg ∈ l → ∃ m, promiseAll l = .error m
  | [], h => by simp at h
  | r :: rest, h => by
    cases r with
    | error m => exact ⟨m, rfl⟩
    | ok a =>
      rcases List.mem_cons.mp h with h2 | h2
      · exact absurd h2 (by simp)
      · obtain ⟨m, hm⟩ := promiseAll_error_of_mem msg rest h2
        exact ⟨m, by simp [promiseAll, hm]⟩

/-- Claim C9: every element of eventsToUpdate gets an update call issued (the
trace holds one update entry per element even in a failing run), and if the
update call of any one of them rejects, updateEvents as a whole rejects and
returns no pair list at all. -/
theorem updateEvents_rejects_batch_on_update_error (adapter : Adapter) (args : UpdateArgs)
    (reqHost : String) (parsed : List ParsedEvent) (e : ParsedEvent) (failMsg : String)
    (hp : parseEvents (allEventsOf args) reqHost = .ok parsed)
    (hmem : e ∈ (buildEventsToUpdate adapter parsed).2)
    (hfail : adapter.update e = .error failMsg) :
    (∃ msg, (updateEvents adapter args reqHost).2 = .error msg) ∧
    ∀ e2, e2 ∈ (buildEventsToUpdate adapter parsed).2 →
      AdapterCall.update e2.gCalEventId ∈ (updateEvents adapter args reqHost).1 := by
  have herr : Except.error failMsg ∈ (buildEventsToUpdate adapter parsed).2.map adapter.update := by
    rw [← hfail]
    exact List.mem_map_of_mem adapter.update hmem
  obtain ⟨m, hm⟩ := promiseAll_error_of_mem failMsg _ herr
  constructor
  · exact ⟨m, by simp [updateEvents, hp, hm]⟩
  · intro e2 hmem2
    simp only [updateEvents, hp]
    exact List.mem_cons_of_mem _
      (List.mem_append_right _ (List.mem_map_of_mem _ hmem2))

/- An adapter whose update calls always reject. -/
def failAdapter : Adapter :=
  { getEventAttendees := fun _ _ => none, update := fun _ => .error "quota" }

/-- Witness for claim C9: with a rejecting adapter, the batch for evOk issues
its update call and the whole updateEvents run rejects. -/
theorem updateEvents_rejects_batch_on_update_error_witness :
    (∃ msg, (updateEvents failAdapter { updated := [evOk], deleted := [] } "example.com").2 =
      .error msg) ∧
    AdapterCall.update ({ evOkParsed with attendees := some [] } : ParsedEvent).gCalEventId ∈
      (updateEvents failAdapter { updated := [evOk], deleted := [] } "example.com").1 :=
  ⟨(updateEvents_rejects_batch_on_update_error failAdapter
      { updated := [evOk], deleted := [] } "example.com" [evOkParsed]
      { evOkParsed with attendees := some [] } "quota" rfl (by decide) rfl).1,
    (updateEvents_rejects_batch_on_update_error failAdapter
      { updated := [evOk], deleted := [] } "example.com" [evOkParsed]
      { evOkParsed with attendees := some [] } "quota" rfl (by decide) rfl).2
      { evOkParsed with attendees := some [] } (by decide)⟩

/- A deleted member of parsedEvents always lands in eventsToUpdate. -/
theorem deleted_mem_buildEventsToUpdate (adapter : Adapter) :
    ∀ (parsed : List ParsedEvent) (e : ParsedEvent), e ∈ parsed → e.isDeleted = true →
      e ∈ (buildEventsToUpdate adapter parsed).2
  | [], e, hmem, _ => by simp at hmem
  | pe :: rest, e, hmem, hdel => by
    rcases List.mem_cons.mp hmem with rfl | h
    · simp [buildEventsToUpdate, hdel]
    · have hrec := deleted_mem_buildEventsToUpdate adapter rest e h hdel
      cases hd2 : pe.isDeleted with
      | true =>
        simp only [buildEventsToUpdate, hd2, if_true]
        exact List.mem_cons_of_mem _ hrec
      | false =>
        cases hg : strTruthy pe.gCalEventId with
        | false => simp only [buildEventsToUpdate, hd2, hg]; simpa using hrec
        | true =>
          cases hc : strTruthy pe.gCalId with
          | false => simp only [buildEventsToUpdate, hd2, hg, hc]; simpa using hrec
          | true =>
            simp only [buildEventsToUpdate, hd2, hg, hc]
            exact List.mem_cons_of_mem _ hrec

/-- Claim C10: a deleted event with a truthy gCalEventId and a falsy gCalId is
pushed before the remote-calendar-id check, so an update call is still issued
for it, while every non-deleted event that reaches the update stage has a
truthy gCalId (the same missing gCalId would have caused a skip). -/
theorem updateEvents_updates_deleted_even_without_gCalId (adapter : Adapter)
    (args : UpdateArgs) (reqHost : String) (parsed : List ParsedEvent) (e : ParsedEvent)
    (hp : parseEvents (allEventsOf args) reqHost = .ok parsed)
    (hmem : e ∈ parsed) (hdel : e.isDeleted = true)
    (hgid : strTruthy e.gCalEventId = true) (hcal : strTruthy e.gCalId = false) :
    AdapterCall.update e.gCalEventId ∈ (updateEvents adapter args reqHost).1 ∧
    ∀ e2, e2 ∈ (buildEventsToUpdate adapter parsed).2 → e2.isDeleted = false →
      strTruthy e2.gCalId = true := by
  constructor
  · have h2 := deleted_mem_buildEventsToUpdate adapter parsed e hmem hdel
    simp only [updateEvents, hp]
    exact List.mem_cons_of_mem _
      (List.mem_append_right _ (List.mem_map_of_mem _ h2))
  · intro e2 h2 hnd
    rcases mem_buildEventsToUpdate adapter parsed e2 h2 with ⟨h3, _⟩ | ⟨_, _, h3, _⟩
    · rw [hnd] at h3; exact absurd h3 (by simp)
    · exact h3

/- A deleted-set event with a remote event id and no remote calendar id. -/
def evDelNoCal : FullEvent :=
  { evSkip with id := "e4", title := "t4", hash := "h4", gCalEventId := some "g4", gCalId := none }

/- evDelNoCal as parseEvents renders it after the deleted-set marking. -/
def evDelNoCalParsed : ParsedEvent :=
  parseOne "https" "example.com" { evDelNoCal with isDeleted := true }

/-- Witness for claim C10: the deleted evDelNoCal, lacking gCalId, still gets
its update call issued. -/
theorem updateEvents_updates_deleted_even_without_gCalId_witness :
    AdapterCall.update evDelNoCalParsed.gCalEventId ∈
      (updateEvents echoAdapter { updated := [], deleted := [evDelNoCal] } "example.com").1 :=
  (updateEvents_updates_deleted_even_without_gCalId echoAdapter
    { updated := [], deleted := [evDelNoCal] } "example.com" [evDelNoCalParsed]
    evDelNoCalParsed rfl (by decide) rfl rfl rfl).1

end ConvoApp
